import Mathlib

/-!
# nevv service: authorization guard and election lifecycle handlers

A shallow embedding of `service/service.go` of qantik/nevv.  The handlers are
pure functions over an explicit service state (`Service`), an explicit ledger
state and a record of the collaborator calls each handler makes, in order.
The ledger (`chains` package), the session store (`state.go`) and the
protocols (`dkg`, `shuffle`) lie outside `service.go`: the ledger is a
parameter (`Chains`), the outcome of a protocol run is an input (`Run`), and
the writes a running protocol makes on its own are not part of a handler's
outcome.
-/

namespace Nevv

/-! ## Data model -/

/-- Go `error` values, identified by their message. -/
abbrev Error := String

deriving instance DecidableEq for Except

/-- User identifier, `chains.User` (an unsigned 32-bit integer in the source). -/
abbrev User := Nat

/-- Identifier of a ledger, `skipchain.SkipBlockID` (a byte string). -/
abbrev SkipBlockID := List Nat

/-- Public identity of a node, `network.ServerIdentity`. -/
abbrev ServerIdentity := Nat

/-- Group element, `abstract.Point`. -/
abbrev Point := Nat

/-- The nodes of a roster, `onet.Roster`, in order. -/
abbrev Roster := List ServerIdentity

/-- Entry of the session map: `stamp{user, admin}`. -/
structure stamp where
  user : User
  admin : Bool
deriving DecidableEq, Repr

/-- Session store: `state{log map[string]*stamp}`, as an association list
whose first binding of a key is the current one. -/
structure state where
  log : List (String × stamp)
deriving DecidableEq, Repr

/-- Result of the key generation on one node, `dkg.SharedSecret`: the private
share `V` and the public commitment `X`. -/
structure SharedSecret where
  Index : Nat
  V : Nat
  X : Point
deriving DecidableEq, Repr

/-- Record `chains.Election`, with the fields the service and its tests use. -/
structure Election where
  ID : SkipBlockID
  Roster : Roster
  Key : Point
  Creator : User
  Users : List User
  Stage : Nat
  Data : List Nat
deriving DecidableEq, Repr

/-- Record `chains.Master{Key, ID, Roster, Admins}`. -/
structure Master where
  Key : Point
  ID : SkipBlockID
  Roster : Roster
  Admins : List User
deriving DecidableEq, Repr

/-- Record `chains.Link{Genesis}`, under the name of its package: `Link` is
also a handler of the service. -/
structure chains.Link where
  Genesis : SkipBlockID
deriving DecidableEq, Repr

/-- An encrypted ballot, `chains.Ballot`. -/
structure Ballot where
  User : User
  Alpha : Point
  Beta : Point
deriving DecidableEq, Repr

/-- Collection of ballots, `chains.Box`. -/
structure Box where
  Ballots : List Ballot
deriving DecidableEq, Repr

/-- Output of one shuffle, `chains.Mix`. -/
structure Mix where
  Ballots : List Ballot
  Proof : List Nat
  Node : String
deriving DecidableEq, Repr

/-- The values handed to `chains.Store` (an `interface{}` in the source). -/
inductive Record where
  | master (m : Master)
  | election (e : Election)
  | link (l : chains.Link)
  | ballot (b : Ballot)
  | box (b : Box)
deriving DecidableEq, Repr

/-- Result of `Roster.GenerateNaryTreeWithRoot(branching, root)`. -/
structure Tree where
  roster : Roster
  branching : Nat
  root : ServerIdentity
deriving DecidableEq, Repr

/-- The protocols the service starts: `dkg.Name` and `shuffle.Name`. -/
inductive ProtocolName where
  | dkg
  | shuffle
deriving DecidableEq, Repr

/-- One call from a handler to a collaborator, with its arguments. -/
inductive Call where
  | New (roster : Roster)
  | Store (roster : Roster) (id : SkipBlockID) (record : Record)
  | FetchMaster (roster : Roster) (id : SkipBlockID)
  | FetchElection (roster : Roster) (id : SkipBlockID)
  | Links (master : Master)
  | Box (election : Election)
  | Mixes (election : Election)
  | Ballots (election : Election)
  | Start (name : ProtocolName) (tree : Tree) (synchronizer : SkipBlockID)
deriving DecidableEq, Repr

/-- Modelled from the spec: the ledger collaborator (package `chains`, with
`skipchain`), which lies outside `service.go`.  The spec lists its
interface: create a new ledger, append a record to a ledger, fetch a typed
record by ledger identifier, compute the derived views `Box`, `Mixes` and
`Ballots`.  `L` is the state of the ledger; reads are functions of it, writes
return the next state.  The stage constants of the package are fields too. -/
structure Chains (L : Type) where
  New : Roster → L → Except Error SkipBlockID × L
  Store : Roster → SkipBlockID → Record → L → Option Error × L
  FetchMaster : Roster → SkipBlockID → L → Except Error Master
  FetchElection : Roster → SkipBlockID → L → Except Error Election
  Links : Master → L → Except Error (List chains.Link)
  Box : Election → L → Except Error Nevv.Box
  Mixes : Election → L → Except Error (List Mix)
  Ballots : Election → L → Except Error Nevv.Box
  Short : SkipBlockID → String
  STAGE_VOID : Nat
  STAGE_RUNNING : Nat

/-- Modelled from the spec: `Election.IsUser` of package `chains`, whose
source is missing: the caller is a listed voter of the election. -/
def Election.IsUser (e : Election) (user : User) : Bool :=
  decide (user ∈ e.Users)

/-- Modelled from the spec: `Election.IsCreator` of package `chains`, whose
source is missing: the caller is the creator of the election. -/
def Election.IsCreator (e : Election) (user : User) : Bool :=
  decide (user = e.Creator)

/-- Modelled from the spec: `Master.IsAdmin` of package `chains`, whose
source is missing: the caller is on the admin list of the master. -/
def Master.IsAdmin (m : Master) (user : User) : Bool :=
  decide (user ∈ m.Admins)

/-- Modelled from the spec: `state.register` of `state.go`, whose source is
missing: stores `{user, isAdmin}` under a fresh token and returns the token.
The token is a random nonce; here it is an input. -/
def state.register (st : state) (nonce : String) (user : User) (admin : Bool) :
    String × state :=
  (nonce, ⟨(nonce, ⟨user, admin⟩) :: st.log⟩)

/-- The service: `Service{secrets, state, node, pin}` and the identity
returned by `ServerIdentity()`. -/
structure Service where
  secrets : List (String × SharedSecret)
  state : state
  node : Roster
  pin : String
  identity : ServerIdentity
deriving DecidableEq, Repr

/-- Which branch of the `select` fires: the completion signal of the protocol
(with the result it exposes) or the timer. -/
inductive Race (σ : Type) where
  | done (result : σ)
  | timeout
deriving DecidableEq, Repr

/-- What a started protocol does, as seen by the handler: the error of
`protocol.Start()`, if any, and the branch of the `select` that fires. -/
structure Run (σ : Type) where
  start : Option Error
  race : Race σ
deriving DecidableEq, Repr

/-- What a handler leaves behind: its reply or error, the service state, the
ledger state after its own collaborator calls, and those calls in order. -/
structure Outcome (L α : Type) where
  reply : Except Error α
  service : Service
  ledger : L
  calls : List Call
deriving DecidableEq

/-! ## Requests and replies (package `api`) -/

structure api.Ping where
  Nonce : Nat
deriving DecidableEq, Repr

structure api.Link where
  Pin : String
  Roster : Roster
  Key : Point
  Admins : List User
deriving DecidableEq, Repr

structure api.LinkReply where
  Master : SkipBlockID
deriving DecidableEq, Repr

structure api.Open where
  Token : String
  Master : SkipBlockID
  Election : Election
deriving DecidableEq, Repr

structure api.OpenReply where
  Genesis : SkipBlockID
  Key : Point
deriving DecidableEq, Repr

structure api.Login where
  Master : SkipBlockID
  User : User
deriving DecidableEq, Repr

structure api.LoginReply where
  Token : String
  Admin : Bool
  Elections : List Election
deriving DecidableEq, Repr

structure api.Cast where
  Token : String
  Genesis : SkipBlockID
  Ballot : Ballot
deriving DecidableEq, Repr

structure api.CastReply where
  Index : Nat
deriving DecidableEq, Repr

structure api.GetBox where
  Token : String
  Genesis : SkipBlockID
deriving DecidableEq, Repr

structure api.GetBoxReply where
  Box : Box
deriving DecidableEq, Repr

structure api.GetMixes where
  Token : String
  Genesis : SkipBlockID
deriving DecidableEq, Repr

structure api.GetMixesReply where
  Mixes : List Mix
deriving DecidableEq, Repr

structure api.Shuffle where
  Token : String
  Genesis : SkipBlockID
deriving DecidableEq, Repr

structure api.ShuffleReply where
deriving DecidableEq, Repr

/-! ## The authorization guard -/

variable {L : Type}

/-- Source `Service.retrieve`: the stamp of the token, the admin level, the
election fetched from the ledger, the creator or voter check, the stage. -/
def retrieve (c : Chains L) (s : Service) (w : L) (token : String)
    (id : SkipBlockID) (admin : Bool) (stage : Nat) :
    Except Error (User × Election) × List Call :=
  match s.state.log.lookup token with
  | none => (.error "User not logged in", [])
  | some stamp =>
    if admin && !stamp.admin then
      (.error "Need admin level", [])
    else
      match c.FetchElection s.node id w with
      | .error err => (.error err, [Call.FetchElection s.node id])
      | .ok election =>
        if admin && !election.IsCreator stamp.user then
          (.error "Need to be creator", [Call.FetchElection s.node id])
        else if !admin && !election.IsUser stamp.user then
          (.error "User not part of election", [Call.FetchElection s.node id])
        else if election.Stage != stage && stage != c.STAGE_VOID then
          (.error "Invalid election state", [Call.FetchElection s.node id])
        else
          (.ok (stamp.user, election), [Call.FetchElection s.node id])

/-! ## The handlers -/

/-- Source `Service.Ping`: the nonce plus one, an unsigned 32-bit sum. -/
def Ping (s : Service) (w : L) (req : api.Ping) : Outcome L api.Ping :=
  ⟨.ok ⟨(req.Nonce + 1) % 2 ^ 32⟩, s, w, []⟩

/-- Source `Service.Link`: an empty pin gets an empty reply, a pin other than
the pin of the service an error; with the right pin a new ledger is created
on the roster of the request and a master record is stored in it. -/
def Link (c : Chains L) (s : Service) (w : L) (req : api.Link) :
    Outcome L api.LinkReply :=
  if req.Pin = "" then
    ⟨.ok ⟨[]⟩, s, w, []⟩
  else if req.Pin ≠ s.pin then
    ⟨.error "Wrong ping", s, w, []⟩
  else
    match c.New req.Roster w with
    | (.error err, w1) => ⟨.error err, s, w1, [Call.New req.Roster]⟩
    | (.ok genesis, w1) =>
      let master : Master := ⟨req.Key, genesis, req.Roster, req.Admins⟩
      match c.Store req.Roster genesis (Record.master master) w1 with
      | (some err, w2) =>
        ⟨.error err, s, w2,
          [Call.New req.Roster, Call.Store req.Roster genesis (Record.master master)]⟩
      | (none, w2) =>
        ⟨.ok ⟨genesis⟩, s, w2,
          [Call.New req.Roster, Call.Store req.Roster genesis (Record.master master)]⟩

/-- Source `Service.Open`: the stamp must be present and admin; the master is
fetched, a new ledger is created on its roster, the key generation is started
on a tree over the whole roster; when it completes the secret is kept, the
election is stored in the new ledger and a link is stored in the ledger of
the master. -/
def Open (c : Chains L) (s : Service) (w : L) (req : api.Open)
    (run : Run SharedSecret) : Outcome L api.OpenReply :=
  match s.state.log.lookup req.Token with
  | none => ⟨.error "User not logged in", s, w, []⟩
  | some user =>
    if !user.admin then
      ⟨.error "Need admin rights", s, w, []⟩
    else
      match c.FetchMaster s.node req.Master w with
      | .error err => ⟨.error err, s, w, [Call.FetchMaster s.node req.Master]⟩
      | .ok master =>
        match c.New master.Roster w with
        | (.error err, w1) =>
          ⟨.error err, s, w1,
            [Call.FetchMaster s.node req.Master, Call.New master.Roster]⟩
        | (.ok genesis, w1) =>
          let size := master.Roster.length
          let tree : Tree := ⟨master.Roster, size, s.identity⟩
          let before := [Call.FetchMaster s.node req.Master, Call.New master.Roster,
            Call.Start ProtocolName.dkg tree genesis]
          match run.start with
          | some err => ⟨.error err, s, w1, before⟩
          | none =>
            match run.race with
            | .done secret =>
              let election : Election :=
                { req.Election with ID := genesis, Roster := master.Roster, Key := secret.X }
              let s1 : Service := { s with secrets := (c.Short genesis, secret) :: s.secrets }
              match c.Store master.Roster genesis (Record.election election) w1 with
              | (some err, w2) =>
                ⟨.error err, s1, w2,
                  before ++ [Call.Store master.Roster genesis (Record.election election)]⟩
              | (none, w2) =>
                match c.Store master.Roster master.ID (Record.link ⟨genesis⟩) w2 with
                | (some err, w3) =>
                  ⟨.error err, s1, w3,
                    before ++ [Call.Store master.Roster genesis (Record.election election),
                      Call.Store master.Roster master.ID (Record.link ⟨genesis⟩)]⟩
                | (none, w3) =>
                  ⟨.ok ⟨genesis, secret.X⟩, s1, w3,
                    before ++ [Call.Store master.Roster genesis (Record.election election),
                      Call.Store master.Roster master.ID (Record.link ⟨genesis⟩)]⟩
            | .timeout => ⟨.error "DKG timeout", s, w1, before⟩

/-- The loop of `Service.Login` over the links of the master: each linked
election is fetched, the first fetch error ends the loop, and the elections
the user is a voter or the creator of are appended to `elections`. -/
def Login.collect (c : Chains L) (s : Service) (w : L) (user : User) :
    List chains.Link → List Election → Except Error (List Election) × List Call
  | [], elections => (.ok elections, [])
  | link :: links, elections =>
    match c.FetchElection s.node link.Genesis w with
    | .error err => (.error err, [Call.FetchElection s.node link.Genesis])
    | .ok election =>
      let elections1 :=
        if election.IsUser user || election.IsCreator user then elections ++ [election]
        else elections
      let rest := Login.collect c s w user links elections1
      (rest.1, Call.FetchElection s.node link.Genesis :: rest.2)

/-- Source `Service.Login`: the master and its links are fetched, the linked
elections of the user are collected, the admin flag is read off the master
and a session is registered.  `nonce` is the token `register` draws. -/
def Login (c : Chains L) (s : Service) (w : L) (req : api.Login) (nonce : String) :
    Outcome L api.LoginReply :=
  match c.FetchMaster s.node req.Master w with
  | .error err => ⟨.error err, s, w, [Call.FetchMaster s.node req.Master]⟩
  | .ok master =>
    match c.Links master w with
    | .error err =>
      ⟨.error err, s, w, [Call.FetchMaster s.node req.Master, Call.Links master]⟩
    | .ok links =>
      match Login.collect c s w req.User links [] with
      | (.error err, cs) =>
        ⟨.error err, s, w, [Call.FetchMaster s.node req.Master, Call.Links master] ++ cs⟩
      | (.ok elections, cs) =>
        let admin := master.IsAdmin req.User
        let reg := s.state.register nonce req.User admin
        ⟨.ok ⟨reg.1, admin, elections⟩, { s with state := reg.2 }, w,
          [Call.FetchMaster s.node req.Master, Call.Links master] ++ cs⟩

/-- Source `Service.Cast`: guard with `(false, STAGE_RUNNING)`, then the
ballot of the request is stored in the ledger of the election. -/
def Cast (c : Chains L) (s : Service) (w : L) (req : api.Cast) :
    Outcome L api.CastReply :=
  match retrieve c s w req.Token req.Genesis false c.STAGE_RUNNING with
  | (.error err, cs) => ⟨.error err, s, w, cs⟩
  | (.ok (_, election), cs) =>
    match c.Store election.Roster election.ID (Record.ballot req.Ballot) w with
    | (some err, w1) =>
      ⟨.error err, s, w1,
        cs ++ [Call.Store election.Roster election.ID (Record.ballot req.Ballot)]⟩
    | (none, w1) =>
      ⟨.ok ⟨0⟩, s, w1,
        cs ++ [Call.Store election.Roster election.ID (Record.ballot req.Ballot)]⟩

/-- Source `Service.GetBox`: guard with `(false, STAGE_VOID)`, then the `Box`
view of the election. -/
def GetBox (c : Chains L) (s : Service) (w : L) (req : api.GetBox) :
    Outcome L api.GetBoxReply :=
  match retrieve c s w req.Token req.Genesis false c.STAGE_VOID with
  | (.error err, cs) => ⟨.error err, s, w, cs⟩
  | (.ok (_, election), cs) =>
    match c.Box election w with
    | .error err => ⟨.error err, s, w, cs ++ [Call.Box election]⟩
    | .ok box => ⟨.ok ⟨box⟩, s, w, cs ++ [Call.Box election]⟩

/-- Source `Service.GetMixes`: guard with `(false, STAGE_VOID)`, then the
`Mixes` view of the election. -/
def GetMixes (c : Chains L) (s : Service) (w : L) (req : api.GetMixes) :
    Outcome L api.GetMixesReply :=
  match retrieve c s w req.Token req.Genesis false c.STAGE_VOID with
  | (.error err, cs) => ⟨.error err, s, w, cs⟩
  | (.ok (_, election), cs) =>
    match c.Mixes election w with
    | .error err => ⟨.error err, s, w, cs ++ [Call.Mixes election]⟩
    | .ok mixes => ⟨.ok ⟨mixes⟩, s, w, cs ++ [Call.Mixes election]⟩

/-- Source `Service.Shuffle`: guard with `(true, STAGE_RUNNING)`, then the
ballots of the election are read and stored as one record, and the shuffle is
started on a tree of branching one rooted at this node. -/
def Shuffle (c : Chains L) (s : Service) (w : L) (req : api.Shuffle)
    (run : Run Unit) : Outcome L api.ShuffleReply :=
  match retrieve c s w req.Token req.Genesis true c.STAGE_RUNNING with
  | (.error err, cs) => ⟨.error err, s, w, cs⟩
  | (.ok (_, election), cs) =>
    match c.Ballots election w with
    | .error err => ⟨.error err, s, w, cs ++ [Call.Ballots election]⟩
    | .ok box =>
      match c.Store election.Roster election.ID (Record.box box) w with
      | (some err, w1) =>
        ⟨.error err, s, w1,
          cs ++ [Call.Ballots election,
            Call.Store election.Roster election.ID (Record.box box)]⟩
      | (none, w1) =>
        let tree : Tree := ⟨election.Roster, 1, s.identity⟩
        let before := cs ++ [Call.Ballots election,
          Call.Store election.Roster election.ID (Record.box box),
          Call.Start ProtocolName.shuffle tree election.ID]
        match run.start with
        | some err => ⟨.error err, s, w1, before⟩
        | none =>
          match run.race with
          | .done _ => ⟨.ok ⟨⟩, s, w1, before⟩
          | .timeout => ⟨.error "Shuffle timeout", s, w1, before⟩

/-! ## Observations on the calls of a handler -/

/-- The calls that write to the ledger: `chains.New` and `chains.Store`. -/
def Call.isWrite : Call → Bool
  | Call.New _ => true
  | Call.Store _ _ _ => true
  | _ => false

/-- The calls that start a protocol. -/
def Call.isStart : Call → Bool
  | Call.Start _ _ _ => true
  | _ => false

/-- The election records a sequence of calls stores, in order. -/
def storedElections : List Call → List Election
  | [] => []
  | Call.Store _ _ (Record.election e) :: cs => e :: storedElections cs
  | _ :: cs => storedElections cs

/-! ## A ledger in memory, for evaluating the handlers on concrete inputs -/

/-- Ledgers by identifier, each one the records appended to it in order;
`next` numbers the ledgers created so far. -/
structure Mem where
  chains : List (SkipBlockID × List Record)
  next : Nat
deriving DecidableEq, Repr

/-- The records of ledger `id`, or `none` when there is no such ledger. -/
def Mem.records (m : Mem) (id : SkipBlockID) : Option (List Record) :=
  m.chains.lookup id

/-- First master record of a list of records. -/
def firstMaster : List Record → Option Master
  | [] => none
  | Record.master m :: _ => some m
  | _ :: rs => firstMaster rs

/-- First election record of a list of records. -/
def firstElection : List Record → Option Election
  | [] => none
  | Record.election e :: _ => some e
  | _ :: rs => firstElection rs

/-- The link records of a list of records, in order. -/
def linksOf : List Record → List chains.Link
  | [] => []
  | Record.link l :: rs => l :: linksOf rs
  | _ :: rs => linksOf rs

/-- The ballot records of a list of records, in order. -/
def ballotsOf : List Record → List Ballot
  | [] => []
  | Record.ballot b :: rs => b :: ballotsOf rs
  | _ :: rs => ballotsOf rs

/-- A ledger collaborator over `Mem`: a new ledger gets the next number as
identifier, a record is appended to an existing ledger, a fetch returns the
first record of its type, the views list the ballots.  Stages are numbered
`VOID = 0`, `RUNNING = 1`. -/
def memChains : Chains Mem where
  New := fun _ m => (.ok [m.next], ⟨([m.next], []) :: m.chains, m.next + 1⟩)
  Store := fun _ id r m =>
    match m.records id with
    | none => (some "No such ledger", m)
    | some rs => (none, ⟨(id, rs ++ [r]) :: m.chains, m.next⟩)
  FetchMaster := fun _ id m =>
    match (m.records id).bind firstMaster with
    | none => .error "No master"
    | some x => .ok x
  FetchElection := fun _ id m =>
    match (m.records id).bind firstElection with
    | none => .error "No election"
    | some x => .ok x
  Links := fun master m =>
    match m.records master.ID with
    | none => .error "No such ledger"
    | some rs => .ok (linksOf rs)
  Box := fun e m =>
    match m.records e.ID with
    | none => .error "No such ledger"
    | some rs => .ok ⟨ballotsOf rs⟩
  Mixes := fun _ _ => .ok []
  Ballots := fun e m =>
    match m.records e.ID with
    | none => .error "No such ledger"
    | some rs => .ok ⟨ballotsOf rs⟩
  Short := fun id => String.join (id.map fun _ => "x")
  STAGE_VOID := 0
  STAGE_RUNNING := 1

/-- A service on node 7 with four sessions: token `"a"` for the non-admin
user 1, `"b"` for the admin user 5, `"c"` for the non-admin user 0 and `"d"`
for the admin user 0. -/
def svc0 : Service :=
  ⟨[], ⟨[("a", ⟨1, false⟩), ("b", ⟨5, true⟩), ("c", ⟨0, false⟩), ("d", ⟨0, true⟩)]⟩,
    [7], "123456", 7⟩

/-- An election on ledger `[10]`: creator 0, voters 1 and 2, stage 1. -/
def election0 : Election :=
  ⟨[10], [7, 8, 9], 42, 0, [1, 2], 1, []⟩

/-- A master on ledger `[20]` whose only admin is user 1. -/
def master0 : Master :=
  ⟨3, [20], [7, 8, 9], [1]⟩

/-- A master on ledger `[21]` whose only admin is user 5. -/
def master1 : Master :=
  ⟨4, [21], [7, 8, 9], [5]⟩

/-- A ledger state holding `election0` with one ballot, `master0` with a
link to `election0`, and `master1` without links. -/
def mem0 : Mem :=
  ⟨[([10], [Record.election election0, Record.ballot ⟨1, 5, 6⟩]),
    ([20], [Record.master master0, Record.link ⟨[10]⟩]),
    ([21], [Record.master master1])], 30⟩

/-- A draft election for `Open` that carries stage 2: creator 5, voters 1
and 2. -/
def draft0 : Election :=
  ⟨[], [], 0, 5, [1, 2], 2, []⟩

/-- A request to open `draft0` on `master0` with the admin session `"b"`. -/
def open0 : api.Open :=
  ⟨"b", [20], draft0⟩

/-- A key generation that starts and completes in time with a secret whose
public commitment is 12. -/
def run0 : Run SharedSecret :=
  ⟨none, Race.done ⟨0, 11, 12⟩⟩

/-- A service on node 7 without sessions. -/
def svc1 : Service :=
  ⟨[], ⟨[]⟩, [7], "123456", 7⟩

/-! ## The named error conditions of the specification -/

/-- Condition `NOT_LOGGED_IN`, with the message of the source. -/
def NOT_LOGGED_IN : Error := "User not logged in"

/-- Condition `NEED_ADMIN` as the guard reports it. -/
def NEED_ADMIN : Error := "Need admin level"

/-- Condition `NEED_ADMIN` as `Open` reports it. -/
def NEED_ADMIN_RIGHTS : Error := "Need admin rights"

/-- Condition `NEED_CREATOR`, with the message of the source. -/
def NEED_CREATOR : Error := "Need to be creator"

/-- Condition `NOT_PART`, with the message of the source. -/
def NOT_PART : Error := "User not part of election"

/-- Condition `INVALID_STATE`, with the message of the source. -/
def INVALID_STATE : Error := "Invalid election state"

/-- The guard as the specification words it, steps 1 to 6 of its
algorithm, without the record of calls. -/
def retrieveSpec (c : Chains L) (s : Service) (w : L) (token : String)
    (electionID : SkipBlockID) (requireAdmin : Bool) (expectedStage : Nat) :
    Except Error (User × Election) := do
  let stamp ← (s.state.log.lookup token).elim (.error NOT_LOGGED_IN) .ok
  if requireAdmin = true ∧ stamp.admin = false then throw NEED_ADMIN
  let election ← c.FetchElection s.node electionID w
  if requireAdmin = true then
    if stamp.user ≠ election.Creator then throw NEED_CREATOR
  else
    if stamp.user ∉ election.Users then throw NOT_PART
  if expectedStage ≠ c.STAGE_VOID ∧ election.Stage ≠ expectedStage then throw INVALID_STATE
  return (stamp.user, election)

/-- Whether the guard of the specification reaches its step 3, the fetch:
the token has a stamp and the admin requirement does not reject it. -/
def retrieveSpec.fetches (s : Service) (token : String) (requireAdmin : Bool) : Bool :=
  match s.state.log.lookup token with
  | none => false
  | some stamp => !(requireAdmin && !stamp.admin)

/-- Condition `DKG_TIMEOUT`, with the message of the source. -/
def DKG_TIMEOUT : Error := "DKG timeout"

/-- Condition `SHUFFLE_TIMEOUT`, with the message of the source. -/
def SHUFFLE_TIMEOUT : Error := "Shuffle timeout"

/-- The error of `Link` on a pin that is not the pin of the service, with the
message of the source. -/
def WRONG_PIN : Error := "Wrong ping"

/-- A request to link a master with key 9 and admins 1 and 5 on the roster
of three nodes, presenting the pin of `svc0`. -/
def link0 : api.Link :=
  ⟨"123456", [7, 8, 9], 9, [1, 5]⟩

/-! ## Lemmas on the guard -/

/-- The guard on a token without stamp: the error, and no call. -/
theorem retrieve_of_not_found (c : Chains L) (s : Service) (w : L) (token : String)
    (id : SkipBlockID) (admin : Bool) (stage : Nat)
    (h : s.state.log.lookup token = none) :
    retrieve c s w token id admin stage = (.error "User not logged in", []) := by
  simp [retrieve, h]

/-- The guard calls nothing or fetches the election once. -/
theorem retrieve_calls (c : Chains L) (s : Service) (w : L) (token : String)
    (id : SkipBlockID) (admin : Bool) (stage : Nat) :
    (retrieve c s w token id admin stage).2 = [] ∨
      (retrieve c s w token id admin stage).2 = [Call.FetchElection s.node id] := by
  unfold retrieve
  repeat' split
  all_goals simp

/-- Once the stamp, the admin level, the fetch and the creator or voter check
pass, the guard is decided by the stage alone. -/
theorem retrieve_stage_step (c : Chains L) (s : Service) (w : L) (token : String)
    (id : SkipBlockID) (admin : Bool) (stage : Nat) (st : stamp) (e : Election)
    (hl : s.state.log.lookup token = some st)
    (hf : c.FetchElection s.node id w = .ok e)
    (ha : admin = true → st.admin = true ∧ st.user = e.Creator)
    (hu : admin = false → st.user ∈ e.Users) :
    (retrieve c s w token id admin stage).1 =
      if stage = c.STAGE_VOID ∨ e.Stage = stage then .ok (st.user, e)
      else .error INVALID_STATE := by
  unfold retrieve
  cases admin <;> simp_all [Election.IsUser, Election.IsCreator, INVALID_STATE] <;>
    split_ifs <;> simp_all

/-! ## C1: unknown tokens -/

/-- C1: for a token that is not a key of the session map, each of `Cast`,
`GetBox`, `GetMixes`, `Shuffle` and `Open` fails with the error
`User not logged in`, whatever the identifiers, ballot, draft, protocol run
and ledger are; it makes no collaborator call and leaves the service and the
ledger as they were. -/
theorem not_logged_in_handlers (c : Chains L) (s : Service) (w : L) (token : String)
    (h : s.state.log.lookup token = none) :
    (∀ id ballot, Cast c s w ⟨token, id, ballot⟩ = ⟨.error NOT_LOGGED_IN, s, w, []⟩) ∧
    (∀ id, GetBox c s w ⟨token, id⟩ = ⟨.error NOT_LOGGED_IN, s, w, []⟩) ∧
    (∀ id, GetMixes c s w ⟨token, id⟩ = ⟨.error NOT_LOGGED_IN, s, w, []⟩) ∧
    (∀ id run, Shuffle c s w ⟨token, id⟩ run = ⟨.error NOT_LOGGED_IN, s, w, []⟩) ∧
    (∀ master draft run,
      Open c s w ⟨token, master, draft⟩ run = ⟨.error NOT_LOGGED_IN, s, w, []⟩) := by
  refine ⟨?_, ?_, ?_, ?_, ?_⟩
  · intro id ballot
    simp [Cast, retrieve_of_not_found c s w token id false _ h, NOT_LOGGED_IN]
  · intro id
    simp [GetBox, retrieve_of_not_found c s w token id false _ h, NOT_LOGGED_IN]
  · intro id
    simp [GetMixes, retrieve_of_not_found c s w token id false _ h, NOT_LOGGED_IN]
  · intro id run
    simp [Shuffle, retrieve_of_not_found c s w token id true _ h, NOT_LOGGED_IN]
  · intro master draft run
    simp [Open, h, NOT_LOGGED_IN]

/-- Witness of C1: the empty token, which is no key of the sessions of `svc0`,
over the ledger in memory. -/
theorem not_logged_in_handlers_witness :
    svc0.state.log.lookup "" = none ∧
    GetBox memChains svc0 mem0 ⟨"", [10]⟩ = ⟨.error "User not logged in", svc0, mem0, []⟩ ∧
    Open memChains svc0 mem0 ⟨"", [20], election0⟩ ⟨none, Race.timeout⟩ =
      ⟨.error "User not logged in", svc0, mem0, []⟩ :=
  ⟨by decide,
   (not_logged_in_handlers memChains svc0 mem0 "" (by decide)).2.1 [10],
   (not_logged_in_handlers memChains svc0 mem0 "" (by decide)).2.2.2.2 [20] election0
     ⟨none, Race.timeout⟩⟩

/-! ## C3: the guard and its six steps -/

/-- C3: for every token, election identifier, admin requirement and expected
stage, `retrieve` returns what the six steps of the specification return, in
their order of precedence, and fetches from the ledger exactly when steps 1
and 2 pass; and once steps 1 to 4 pass, it succeeds with the user of the stamp
and the fetched election exactly when the expected stage is the wildcard or
equals the stage of the election, and fails with `INVALID_STATE` otherwise. -/
theorem retrieve_eq_retrieveSpec (c : Chains L) (s : Service) (w : L) (token : String)
    (id : SkipBlockID) (admin : Bool) (stage : Nat) :
    retrieve c s w token id admin stage =
        (retrieveSpec c s w token id admin stage,
          if retrieveSpec.fetches s token admin then [Call.FetchElection s.node id] else []) ∧
    (∀ st e, s.state.log.lookup token = some st →
      c.FetchElection s.node id w = .ok e →
      (admin = true → st.admin = true ∧ st.user = e.Creator) →
      (admin = false → st.user ∈ e.Users) →
      (retrieve c s w token id admin stage).1 =
        if stage = c.STAGE_VOID ∨ e.Stage = stage then .ok (st.user, e)
        else .error INVALID_STATE) := by
  constructor
  · unfold retrieve retrieveSpec retrieveSpec.fetches
    cases hl : s.state.log.lookup token with
    | none => rfl
    | some st =>
      cases admin <;> cases hadm : st.admin <;>
        cases hf : c.FetchElection s.node id w <;>
        simp [hl, hadm, hf, Option.elim, bind, Except.bind, throw, throwThe,
          MonadExceptOf.throw, pure, Except.pure, NEED_ADMIN, NEED_CREATOR, NOT_PART,
          INVALID_STATE, Election.IsUser, Election.IsCreator] <;>
        split_ifs <;> simp_all
  · intro st e hl hf ha hu
    exact retrieve_stage_step c s w token id admin stage st e hl hf ha hu

/-- Witness of C3: voter 1 on `election0`, which is at stage 1: the guard
with expected stage 2 fails with `Invalid election state`. -/
theorem retrieve_eq_retrieveSpec_witness :
    svc0.state.log.lookup "a" = some ⟨1, false⟩ ∧
    memChains.FetchElection svc0.node [10] mem0 = .ok election0 ∧
    (retrieve memChains svc0 mem0 "a" [10] false 2).1 = .error "Invalid election state" :=
  ⟨by decide, by decide,
   (retrieve_eq_retrieveSpec memChains svc0 mem0 "a" [10] false 2).2 ⟨1, false⟩ election0
     (by decide) (by decide) (by decide) (by decide)⟩

/-! ## C2: who passes the guard of a read -/

/-- C2, as stated, fails: the creator of `election0` (user 0, session `"c"`)
is not among its voters, and the guard with `(false, STAGE_VOID)` rejects the
session with `User not part of election`. -/
theorem retrieve_creator_not_voter_rejected :
    svc0.state.log.lookup "c" = some ⟨0, false⟩ ∧
    memChains.FetchElection svc0.node election0.ID mem0 = .ok election0 ∧
    (0 ∈ election0.Users ∨ 0 = election0.Creator) ∧
    (retrieve memChains svc0 mem0 "c" election0.ID false memChains.STAGE_VOID).1 =
      .error "User not part of election" := by
  decide

/-- C2, amended: for an election the ledger fetches and a session bound to
user `u`, the guard with `(false, STAGE_VOID)` succeeds, returning `u` and the
election, exactly when `u` is among the voters of the election, and fails with
`NOT_PART` when `u` is not, the creator included. -/
theorem retrieve_read_iff_voter (c : Chains L) (s : Service) (w : L) (token : String)
    (st : stamp) (e : Election)
    (hl : s.state.log.lookup token = some st)
    (hf : c.FetchElection s.node e.ID w = .ok e) :
    ((retrieve c s w token e.ID false c.STAGE_VOID).1 = .ok (st.user, e) ↔
        st.user ∈ e.Users) ∧
    ((retrieve c s w token e.ID false c.STAGE_VOID).1.toBool = true ↔ st.user ∈ e.Users) ∧
    (st.user ∉ e.Users →
      (retrieve c s w token e.ID false c.STAGE_VOID).1 = .error NOT_PART) := by
  by_cases hu : st.user ∈ e.Users <;>
    simp [retrieve, hl, hf, hu, Election.IsUser, NOT_PART, Except.toBool]

/-- Witness of C2 amended: the voter 1 of `election0`, session `"a"`. -/
theorem retrieve_read_iff_voter_witness :
    svc0.state.log.lookup "a" = some ⟨1, false⟩ ∧
    memChains.FetchElection svc0.node election0.ID mem0 = .ok election0 ∧
    ((retrieve memChains svc0 mem0 "a" election0.ID false memChains.STAGE_VOID).1 =
        .ok (1, election0) ↔ 1 ∈ election0.Users) :=
  ⟨by decide, by decide,
   (retrieve_read_iff_voter memChains svc0 mem0 "a" ⟨1, false⟩ election0
     (by decide) (by decide)).1⟩

/-! ## C4: Shuffle by a session that is not the creator -/

/-- C4, as stated, fails: the session `"a"` of the non-admin user 1, who is
not the creator of `election0`, gets `Need admin level` from `Shuffle`, not
`Need to be creator`. -/
theorem shuffle_non_admin_need_admin :
    svc0.state.log.lookup "a" = some ⟨1, false⟩ ∧
    memChains.FetchElection svc0.node [10] mem0 = .ok election0 ∧
    1 ≠ election0.Creator ∧
    (Shuffle memChains svc0 mem0 ⟨"a", [10]⟩ ⟨none, Race.done ()⟩).reply =
      .error "Need admin level" ∧
    (Shuffle memChains svc0 mem0 ⟨"a", [10]⟩ ⟨none, Race.done ()⟩).reply ≠
      .error NEED_CREATOR := by
  decide

/-- C4, amended: for an election the ledger fetches and a logged-in session
whose user is not its creator, `Shuffle` fails with `NEED_CREATOR` when the
stamp is admin, having only fetched the election, and with `NEED_ADMIN` when
the stamp is not admin, having called nothing; in both cases the service and
the ledger are as before and no call writes to the ledger or starts a
protocol. -/
theorem shuffle_non_creator (c : Chains L) (s : Service) (w : L) (token : String)
    (id : SkipBlockID) (run : Run Unit) (st : stamp) (e : Election)
    (hl : s.state.log.lookup token = some st)
    (hf : c.FetchElection s.node id w = .ok e)
    (hc : st.user ≠ e.Creator) :
    Shuffle c s w ⟨token, id⟩ run =
        (if st.admin then ⟨.error NEED_CREATOR, s, w, [Call.FetchElection s.node id]⟩
         else ⟨.error NEED_ADMIN, s, w, []⟩) ∧
    (∀ call ∈ (Shuffle c s w ⟨token, id⟩ run).calls,
      call.isWrite = false ∧ call.isStart = false) := by
  have h : Shuffle c s w ⟨token, id⟩ run =
      (if st.admin then ⟨.error NEED_CREATOR, s, w, [Call.FetchElection s.node id]⟩
       else ⟨.error NEED_ADMIN, s, w, []⟩) := by
    cases hadm : st.admin <;>
      simp [Shuffle, retrieve, hl, hf, hc, hadm, Election.IsCreator, NEED_CREATOR, NEED_ADMIN]
  refine ⟨h, ?_⟩
  rw [h]
  cases st.admin <;> simp [Call.isWrite, Call.isStart]

/-- Witness of C4 amended: the admin user 5, session `"b"`, who is not the
creator of `election0`. -/
theorem shuffle_non_creator_witness :
    svc0.state.log.lookup "b" = some ⟨5, true⟩ ∧
    memChains.FetchElection svc0.node [10] mem0 = .ok election0 ∧
    5 ≠ election0.Creator ∧
    Shuffle memChains svc0 mem0 ⟨"b", [10]⟩ ⟨none, Race.done ()⟩ =
      ⟨.error "Need to be creator", svc0, mem0, [Call.FetchElection [7] [10]]⟩ :=
  ⟨by decide, by decide, by decide,
   (shuffle_non_creator memChains svc0 mem0 "b" [10] ⟨none, Race.done ()⟩ ⟨5, true⟩
     election0 (by decide) (by decide) (by decide)).1⟩

/-! ## C5: the stage of the election `Open` persists -/

/-- C5, as stated, fails: `Open` of a draft that carries stage 2 succeeds and
persists an election of stage 2, which is not `STAGE_RUNNING`; the guard of a
`Cast` by voter 1 that follows on the new election fails with
`Invalid election state`.  Whatever number `STAGE_RUNNING` is, a draft that
carries the next number is persisted with it. -/
theorem open_persists_stage_of_draft_not_running :
    (Open memChains svc0 mem0 open0 run0).reply = .ok ⟨[30], 12⟩ ∧
    storedElections (Open memChains svc0 mem0 open0 run0).calls =
      [⟨[30], [7, 8, 9], 12, 5, [1, 2], 2, []⟩] ∧
    (2 : Nat) ≠ memChains.STAGE_RUNNING ∧
    (retrieve memChains (Open memChains svc0 mem0 open0 run0).service
        (Open memChains svc0 mem0 open0 run0).ledger "a" [30] false
        memChains.STAGE_RUNNING).1 = .error "Invalid election state" ∧
    (∀ running : Nat,
      (Open { memChains with STAGE_RUNNING := running } svc0 mem0
          ⟨"b", [20], { draft0 with Stage := running + 1 }⟩ run0).reply = .ok ⟨[30], 12⟩ ∧
      (storedElections (Open { memChains with STAGE_RUNNING := running } svc0 mem0
          ⟨"b", [20], { draft0 with Stage := running + 1 }⟩ run0).calls).map Election.Stage =
        [running + 1]) := by
  refine ⟨by decide, by decide, by decide, by decide, ?_⟩
  intro running
  exact ⟨rfl, rfl⟩

/-- C5, amended: when `Open` succeeds, the one election record it stores is
the draft with `ID`, `Roster` and `Key` filled in, so its stage is the stage
the draft carries, and it is `STAGE_RUNNING` exactly when the draft carries
`STAGE_RUNNING`; on a ledger that fetches this record for the new identifier,
the guard of a read or cast by a listed voter succeeds exactly when its
expected stage is the wildcard or the stage of the draft, and fails with
`INVALID_STATE` otherwise. -/
theorem open_persists_draft_stage (c : Chains L) (s : Service) (w : L) (req : api.Open)
    (run : Run SharedSecret) (r : api.OpenReply)
    (h : (Open c s w req run).reply = .ok r) :
    (∃ master, c.FetchMaster s.node req.Master w = .ok master ∧
      storedElections (Open c s w req run).calls =
        [{ req.Election with ID := r.Genesis, Roster := master.Roster, Key := r.Key }]) ∧
    (∀ e ∈ storedElections (Open c s w req run).calls,
      e.Stage = req.Election.Stage ∧
      (e.Stage = c.STAGE_RUNNING ↔ req.Election.Stage = c.STAGE_RUNNING) ∧
      ∀ token st stage,
        (Open c s w req run).service.state.log.lookup token = some st →
        c.FetchElection (Open c s w req run).service.node r.Genesis
          (Open c s w req run).ledger = .ok e →
        st.user ∈ req.Election.Users →
        (retrieve c (Open c s w req run).service (Open c s w req run).ledger token
            r.Genesis false stage).1 =
          if stage = c.STAGE_VOID ∨ req.Election.Stage = stage then .ok (st.user, e)
          else .error INVALID_STATE) := by
  have key : ∃ master, c.FetchMaster s.node req.Master w = .ok master ∧
      storedElections (Open c s w req run).calls =
        [{ req.Election with ID := r.Genesis, Roster := master.Roster, Key := r.Key }] := by
    cases hl : s.state.log.lookup req.Token with
    | none => simp [Open, hl] at h
    | some st =>
      cases ha : st.admin with
      | false => simp [Open, hl, ha] at h
      | true =>
        cases hm : c.FetchMaster s.node req.Master w with
        | error err => simp [Open, hl, ha, hm] at h
        | ok master =>
          rcases hn : c.New master.Roster w with ⟨_ | g, w1⟩
          · simp [Open, hl, ha, hm, hn] at h
          · cases hs : run.start with
            | some err => simp [Open, hl, ha, hm, hn, hs] at h
            | none =>
              cases hr : run.race with
              | timeout => simp [Open, hl, ha, hm, hn, hs, hr] at h
              | done secret =>
                rcases h1 : c.Store master.Roster g (Record.election
                  { req.Election with ID := g, Roster := master.Roster, Key := secret.X })
                  w1 with ⟨_ | err, w2⟩
                · rcases h2 : c.Store master.Roster master.ID (Record.link ⟨g⟩) w2
                    with ⟨_ | err, w3⟩
                  · simp [Open, hl, ha, hm, hn, hs, hr, h1, h2] at h
                    subst h
                    exact ⟨master, rfl, by
                      simp [Open, hl, ha, hm, hn, hs, hr, h1, h2, storedElections]⟩
                  · simp [Open, hl, ha, hm, hn, hs, hr, h1, h2] at h
                · simp [Open, hl, ha, hm, hn, hs, hr, h1] at h
  refine ⟨key, ?_⟩
  obtain ⟨master, -, hst⟩ := key
  intro e he
  rw [hst] at he
  simp only [List.mem_singleton] at he
  subst he
  refine ⟨rfl, Iff.rfl, ?_⟩
  intro token st stage hl hf hu
  have h3 := retrieve_stage_step c (Open c s w req run).service
    (Open c s w req run).ledger token r.Genesis false stage st _ hl hf (by simp)
    (fun _ => hu)
  simpa using h3

/-- Witness of C5 amended: `open0` on the ledger in memory. -/
theorem open_persists_draft_stage_witness :
    (Open memChains svc0 mem0 open0 run0).reply = .ok ⟨[30], 12⟩ ∧
    ∀ e ∈ storedElections (Open memChains svc0 mem0 open0 run0).calls,
      e.Stage = draft0.Stage :=
  ⟨by decide,
   fun e he => ((open_persists_draft_stage memChains svc0 mem0 open0 run0 ⟨[30], 12⟩
     (by decide)).2 e he).1⟩

/-! ## Lemmas on `Login` -/

/-- The loop of `Login` when every linked election is fetched: the elections of
the user are appended in link order and every link is fetched once. -/
theorem Login.collect_ok (c : Chains L) (s : Service) (w : L) (user : User) :
    ∀ (links : List chains.Link) (es acc : List Election),
      links.map (fun l => c.FetchElection s.node l.Genesis w) = es.map Except.ok →
      Login.collect c s w user links acc =
        (.ok (acc ++ es.filter (fun e => e.IsUser user || e.IsCreator user)),
          links.map (fun l => Call.FetchElection s.node l.Genesis)) := by
  intro links
  induction links with
  | nil =>
    intro es acc h
    cases es with
    | nil => simp [Login.collect]
    | cons e es => simp at h
  | cons l links ih =>
    intro es acc h
    cases es with
    | nil => simp at h
    | cons e es =>
      simp only [List.map_cons, List.cons.injEq] at h
      obtain ⟨h1, h2⟩ := h
      unfold Login.collect
      simp only [h1]
      rw [ih es _ h2]
      by_cases hp : (e.IsUser user || e.IsCreator user) = true
      · simp [hp, List.filter_cons]
      · simp [hp, List.filter_cons]

/-- The loop of `Login` stops at the first linked election that cannot be
fetched, with the error of that fetch. -/
theorem Login.collect_error (c : Chains L) (s : Service) (w : L) (user : User) :
    ∀ (pre : List chains.Link) (es acc : List Election) (l : chains.Link) (post : List chains.Link) (err : Error),
      pre.map (fun l => c.FetchElection s.node l.Genesis w) = es.map Except.ok →
      c.FetchElection s.node l.Genesis w = .error err →
      Login.collect c s w user (pre ++ l :: post) acc =
        (.error err, (pre ++ [l]).map (fun l => Call.FetchElection s.node l.Genesis)) := by
  intro pre
  induction pre with
  | nil =>
    intro es acc l post err _ hl
    simp [Login.collect, hl]
  | cons p pre ih =>
    intro es acc l post err h hl
    cases es with
    | nil => simp at h
    | cons e es =>
      simp only [List.map_cons, List.cons.injEq] at h
      obtain ⟨h1, h2⟩ := h
      simp only [List.cons_append]
      unfold Login.collect
      simp only [h1]
      rw [ih es _ l post err h2 hl]
      simp

/-- A `Login` that succeeds registered the stamp of the user, with the admin
flag of the master, under the token it returns. -/
theorem Login_of_ok (c : Chains L) (s : Service) (w : L) (req : api.Login)
    (nonce : String) (master : Master) (r : api.LoginReply)
    (hm : c.FetchMaster s.node req.Master w = .ok master)
    (h : (Login c s w req nonce).reply = .ok r) :
    r.Token = nonce ∧ r.Admin = master.IsAdmin req.User ∧
    (Login c s w req nonce).service =
      { s with state := ⟨(nonce, ⟨req.User, master.IsAdmin req.User⟩) :: s.state.log⟩ } ∧
    (Login c s w req nonce).ledger = w := by
  cases hk : c.Links master w with
  | error err => simp [Login, hm, hk] at h
  | ok links =>
    rcases hc : Login.collect c s w req.User links [] with ⟨_ | es, cs⟩
    · simp [Login, hm, hk, hc] at h
    · simp [Login, hm, hk, hc, state.register] at h
      subst h
      simp [Login, hm, hk, hc, state.register]

/-! ## C6: who may open an election on a master -/

/-- C6, as stated, fails: user 5 logs in against `master1`, whose admin list
holds 5, and with the token obtained opens an election on `master0`, whose
admin list does not hold 5: `Open` succeeds and creates a ledger. -/
theorem open_by_admin_of_other_master :
    (Login memChains svc1 mem0 ⟨[21], 5⟩ "t").reply = .ok ⟨"t", true, []⟩ ∧
    memChains.FetchMaster svc1.node [20] mem0 = .ok master0 ∧
    5 ∉ master0.Admins ∧
    (Open memChains (Login memChains svc1 mem0 ⟨[21], 5⟩ "t").service
        (Login memChains svc1 mem0 ⟨[21], 5⟩ "t").ledger ⟨"t", [20], draft0⟩ run0).reply =
      .ok ⟨[30], 12⟩ ∧
    Call.New [7, 8, 9] ∈
      (Open memChains (Login memChains svc1 mem0 ⟨[21], 5⟩ "t").service
        (Login memChains svc1 mem0 ⟨[21], 5⟩ "t").ledger ⟨"t", [20], draft0⟩ run0).calls := by
  decide

/-- C6, amended: `Open` succeeds only if the stamp of the session carries the
admin flag; for every session whose stamp is not admin, `Open` fails with
`Need admin rights`, calls no collaborator and so creates no ledger.  The flag
is the one `Login` wrote from the admin list of the master logged in against:
a session obtained by logging in against a master whose admin list does not
hold the user fails to open an election on any master. -/
theorem open_requires_admin_stamp (c : Chains L) (s : Service) (w : L) :
    (∀ req run st, s.state.log.lookup req.Token = some st → st.admin = false →
      Open c s w req run = ⟨.error NEED_ADMIN_RIGHTS, s, w, []⟩) ∧
    (∀ req run r, (Open c s w req run).reply = .ok r →
      ∃ st, s.state.log.lookup req.Token = some st ∧ st.admin = true) ∧
    (∀ login nonce master r, c.FetchMaster s.node login.Master w = .ok master →
      (Login c s w login nonce).reply = .ok r → login.User ∉ master.Admins →
      ∀ target draft run w1,
        Open c (Login c s w login nonce).service w1 ⟨r.Token, target, draft⟩ run =
          ⟨.error NEED_ADMIN_RIGHTS, (Login c s w login nonce).service, w1, []⟩) := by
  refine ⟨?_, ?_, ?_⟩
  · intro req run st hl ha
    simp [Open, hl, ha, NEED_ADMIN_RIGHTS]
  · intro req run r h
    cases hl : s.state.log.lookup req.Token with
    | none => simp [Open, hl] at h
    | some st =>
      cases ha : st.admin with
      | false => simp [Open, hl, ha] at h
      | true => exact ⟨st, rfl, ha⟩
  · intro login nonce master r hm h hu target draft run w1
    obtain ⟨ht, -, hs, -⟩ := Login_of_ok c s w login nonce master r hm h
    rw [hs, ht]
    simp [Open, Master.IsAdmin, hu, NEED_ADMIN_RIGHTS]

/-- Witness of C6 amended: the non-admin session `"a"` of `svc0`. -/
theorem open_requires_admin_stamp_witness :
    svc0.state.log.lookup "a" = some ⟨1, false⟩ ∧
    Open memChains svc0 mem0 ⟨"a", [20], draft0⟩ run0 =
      ⟨.error "Need admin rights", svc0, mem0, []⟩ :=
  ⟨by decide,
   (open_requires_admin_stamp memChains svc0 mem0).1 ⟨"a", [20], draft0⟩ run0 ⟨1, false⟩
     (by decide) rfl⟩

/-! ## C7: Cast appends exactly when its guard passes -/

/-- C7: `Cast` runs the guard `retrieve(token, id, false, STAGE_RUNNING)`.
When the guard fails, `Cast` returns its error, leaves the service and the
ledger as they were and makes no write.  When the guard succeeds with election
`e`, the one write of `Cast` is the store of the ballot of the request,
unchanged, to ledger `e.ID` on roster `e.Roster`; the ledger is what that
store leaves, and the reply is the acknowledgement if the store succeeds and
its error if not.  In no case does `Cast` store an election record. -/
theorem cast_appends_iff_guard (c : Chains L) (s : Service) (w : L) (req : api.Cast) :
    (∀ err cs, retrieve c s w req.Token req.Genesis false c.STAGE_RUNNING = (.error err, cs) →
      Cast c s w req = ⟨.error err, s, w, cs⟩ ∧
      (Cast c s w req).calls.filter Call.isWrite = []) ∧
    (∀ u e cs, retrieve c s w req.Token req.Genesis false c.STAGE_RUNNING = (.ok (u, e), cs) →
      (Cast c s w req).calls.filter Call.isWrite =
        [Call.Store e.Roster e.ID (Record.ballot req.Ballot)] ∧
      (Cast c s w req).calls = cs ++ [Call.Store e.Roster e.ID (Record.ballot req.Ballot)] ∧
      (Cast c s w req).ledger = (c.Store e.Roster e.ID (Record.ballot req.Ballot) w).2 ∧
      (Cast c s w req).reply =
        (match (c.Store e.Roster e.ID (Record.ballot req.Ballot) w).1 with
         | none => .ok ⟨0⟩
         | some err => .error err) ∧
      (Cast c s w req).service = s) ∧
    storedElections (Cast c s w req).calls = [] := by
  have hcalls := retrieve_calls c s w req.Token req.Genesis false c.STAGE_RUNNING
  rcases hg : retrieve c s w req.Token req.Genesis false c.STAGE_RUNNING
    with ⟨err0 | ⟨u, e⟩, cs⟩
  · rw [hg] at hcalls
    have hc : Cast c s w req = ⟨.error err0, s, w, cs⟩ := by simp [Cast, hg]
    refine ⟨?_, ?_, ?_⟩
    · intro err cs1 h
      simp only [Prod.mk.injEq, Except.error.injEq] at h
      obtain ⟨h1, h2⟩ := h
      subst h1 h2
      refine ⟨hc, ?_⟩
      rw [hc]
      rcases hcalls with h | h <;> simp at h <;> simp [h, Call.isWrite]
    · intro u e cs1 h
      simp at h
    · rw [hc]
      rcases hcalls with h | h <;> simp at h <;> simp [h, storedElections]
  · rw [hg] at hcalls
    have hcs : cs.filter Call.isWrite = [] ∧ storedElections cs = [] := by
      rcases hcalls with h | h <;> simp at h <;> simp [h, Call.isWrite, storedElections]
    have hse : ∀ (xs : List Call) (b : Ballot) (ro : Roster) (i : SkipBlockID),
        storedElections (xs ++ [Call.Store ro i (Record.ballot b)]) = storedElections xs := by
      intro xs b ro i
      induction xs with
      | nil => simp [storedElections]
      | cons x xs ih =>
        cases x with
        | Store r1 i1 rec => cases rec <;> simp [storedElections, ih]
        | _ => simp [storedElections, ih]
    rcases hst : c.Store e.Roster e.ID (Record.ballot req.Ballot) w with ⟨_ | err, w1⟩
    · have hc : Cast c s w req =
          ⟨.ok ⟨0⟩, s, w1, cs ++ [Call.Store e.Roster e.ID (Record.ballot req.Ballot)]⟩ := by
        simp [Cast, hg, hst]
      refine ⟨?_, ?_, ?_⟩
      · intro err cs1 h
        simp at h
      · intro u1 e1 cs1 h
        simp only [Prod.mk.injEq, Except.ok.injEq] at h
        obtain ⟨⟨h1, h2⟩, h3⟩ := h
        subst h1 h2 h3
        rw [hc, hst]
        simp [hcs.1, Call.isWrite]
      · rw [hc, hse]
        exact hcs.2
    · have hc : Cast c s w req =
          ⟨.error err, s, w1, cs ++ [Call.Store e.Roster e.ID (Record.ballot req.Ballot)]⟩ := by
        simp [Cast, hg, hst]
      refine ⟨?_, ?_, ?_⟩
      · intro err cs1 h
        simp at h
      · intro u1 e1 cs1 h
        simp only [Prod.mk.injEq, Except.ok.injEq] at h
        obtain ⟨⟨h1, h2⟩, h3⟩ := h
        subst h1 h2 h3
        rw [hc, hst]
        simp [hcs.1, Call.isWrite]
      · rw [hc, hse]
        exact hcs.2

/-- Witness of C7: voter 1 casts a ballot on `election0`, which is at the
running stage. -/
theorem cast_appends_iff_guard_witness :
    retrieve memChains svc0 mem0 "a" [10] false memChains.STAGE_RUNNING =
      (.ok (1, election0), [Call.FetchElection [7] [10]]) ∧
    (Cast memChains svc0 mem0 ⟨"a", [10], ⟨1, 8, 9⟩⟩).calls.filter Call.isWrite =
      [Call.Store [7, 8, 9] [10] (Record.ballot ⟨1, 8, 9⟩)] :=
  ⟨by decide,
   ((cast_appends_iff_guard memChains svc0 mem0 ⟨"a", [10], ⟨1, 8, 9⟩⟩).2.1 1 election0
     [Call.FetchElection [7] [10]] (by decide)).1⟩

/-! ## C8: GetBox and GetMixes are reads -/

/-- C8: for a session bound to a listed voter of an election the ledger
fetches, whatever the stage of the election, `GetBox` returns the `Box` view
of the collaborator on the fetched election and `GetMixes` its `Mixes` view
(or the error of the view); both leave the session map, the secret map and the
ledger as they were and call only the fetch and the view, so that a second
call right after the first returns the same outcome. -/
theorem getbox_getmixes_pure_reads (c : Chains L) (s : Service) (w : L) (token : String)
    (id : SkipBlockID) (st : stamp) (e : Election)
    (hl : s.state.log.lookup token = some st)
    (hf : c.FetchElection s.node id w = .ok e)
    (hu : st.user ∈ e.Users) :
    GetBox c s w ⟨token, id⟩ =
      ⟨(c.Box e w).map api.GetBoxReply.mk, s, w, [Call.FetchElection s.node id, Call.Box e]⟩ ∧
    GetMixes c s w ⟨token, id⟩ =
      ⟨(c.Mixes e w).map api.GetMixesReply.mk, s, w,
        [Call.FetchElection s.node id, Call.Mixes e]⟩ ∧
    GetBox c (GetBox c s w ⟨token, id⟩).service (GetBox c s w ⟨token, id⟩).ledger ⟨token, id⟩ =
      GetBox c s w ⟨token, id⟩ ∧
    GetMixes c (GetMixes c s w ⟨token, id⟩).service (GetMixes c s w ⟨token, id⟩).ledger
        ⟨token, id⟩ =
      GetMixes c s w ⟨token, id⟩ := by
  have hg : retrieve c s w token id false c.STAGE_VOID =
      (.ok (st.user, e), [Call.FetchElection s.node id]) := by
    simp [retrieve, hl, hf, hu, Election.IsUser]
  have hb : GetBox c s w ⟨token, id⟩ =
      ⟨(c.Box e w).map api.GetBoxReply.mk, s, w,
        [Call.FetchElection s.node id, Call.Box e]⟩ := by
    cases hv : c.Box e w <;> simp [GetBox, hg, hv, Except.map]
  have hm : GetMixes c s w ⟨token, id⟩ =
      ⟨(c.Mixes e w).map api.GetMixesReply.mk, s, w,
        [Call.FetchElection s.node id, Call.Mixes e]⟩ := by
    cases hv : c.Mixes e w <;> simp [GetMixes, hg, hv, Except.map]
  refine ⟨hb, hm, ?_, ?_⟩
  · rw [hb]
    exact hb
  · rw [hm]
    exact hm

/-- Witness of C8: voter 1 reads the box of `election0`, which holds the one
ballot cast. -/
theorem getbox_getmixes_pure_reads_witness :
    svc0.state.log.lookup "a" = some ⟨1, false⟩ ∧
    memChains.FetchElection svc0.node [10] mem0 = .ok election0 ∧
    1 ∈ election0.Users ∧
    GetBox memChains svc0 mem0 ⟨"a", [10]⟩ =
      ⟨.ok ⟨⟨[⟨1, 5, 6⟩]⟩⟩, svc0, mem0, [Call.FetchElection [7] [10], Call.Box election0]⟩ :=
  ⟨by decide, by decide, by decide,
   (getbox_getmixes_pure_reads memChains svc0 mem0 "a" [10] ⟨1, false⟩ election0
     (by decide) (by decide) (by decide)).1⟩

/-! ## C9: Login -/

/-- C9: when the master, its links and every linked election can be fetched,
`Login` replies with the token registered, the admin flag `master.IsAdmin u`
and the linked elections that list `u` as voter or have `u` as creator, in
link order, and the session map then maps the token to the stamp of `u` with
that flag; when the master, its links, or the first linked election that
cannot be fetched fails, `Login` fails with that error and the service, its
session map included, is unchanged. -/
theorem login_collects_and_registers (c : Chains L) (s : Service) (w : L)
    (req : api.Login) (nonce : String) :
    (∀ (master : Master) (links : List chains.Link) (es : List Election),
      c.FetchMaster s.node req.Master w = .ok master →
      c.Links master w = .ok links →
      links.map (fun l => c.FetchElection s.node l.Genesis w) = es.map Except.ok →
      Login c s w req nonce =
        ⟨.ok ⟨nonce, master.IsAdmin req.User,
            es.filter (fun e => decide (req.User ∈ e.Users ∨ req.User = e.Creator))⟩,
          { s with state := ⟨(nonce, ⟨req.User, master.IsAdmin req.User⟩) :: s.state.log⟩ },
          w,
          [Call.FetchMaster s.node req.Master, Call.Links master] ++
            links.map (fun l => Call.FetchElection s.node l.Genesis)⟩ ∧
      (Login c s w req nonce).service.state.log.lookup nonce =
        some ⟨req.User, master.IsAdmin req.User⟩ ∧
      (master.IsAdmin req.User = true ↔ req.User ∈ master.Admins)) ∧
    (∀ err, c.FetchMaster s.node req.Master w = .error err →
      Login c s w req nonce = ⟨.error err, s, w, [Call.FetchMaster s.node req.Master]⟩) ∧
    (∀ master err, c.FetchMaster s.node req.Master w = .ok master →
      c.Links master w = .error err →
      Login c s w req nonce =
        ⟨.error err, s, w, [Call.FetchMaster s.node req.Master, Call.Links master]⟩) ∧
    (∀ (master : Master) (pre : List chains.Link) (l : chains.Link) (post : List chains.Link)
        (es : List Election) (err : Error),
      c.FetchMaster s.node req.Master w = .ok master →
      c.Links master w = .ok (pre ++ l :: post) →
      pre.map (fun l => c.FetchElection s.node l.Genesis w) = es.map Except.ok →
      c.FetchElection s.node l.Genesis w = .error err →
      Login c s w req nonce =
        ⟨.error err, s, w,
          [Call.FetchMaster s.node req.Master, Call.Links master] ++
            (pre ++ [l]).map (fun l => Call.FetchElection s.node l.Genesis)⟩) := by
  refine ⟨?_, ?_, ?_, ?_⟩
  · intro master links es hm hk hes
    have hc := Login.collect_ok c s w req.User links es [] hes
    have hfilter : es.filter (fun e => e.IsUser req.User || e.IsCreator req.User) =
        es.filter (fun e => decide (req.User ∈ e.Users ∨ req.User = e.Creator)) := by
      apply List.filter_congr
      intro e _
      simp [Election.IsUser, Election.IsCreator]
    have hlogin : Login c s w req nonce =
        ⟨.ok ⟨nonce, master.IsAdmin req.User,
            es.filter (fun e => decide (req.User ∈ e.Users ∨ req.User = e.Creator))⟩,
          { s with state := ⟨(nonce, ⟨req.User, master.IsAdmin req.User⟩) :: s.state.log⟩ },
          w,
          [Call.FetchMaster s.node req.Master, Call.Links master] ++
            links.map (fun l => Call.FetchElection s.node l.Genesis)⟩ := by
      simp [Login, hm, hk, hc, state.register, hfilter]
    refine ⟨hlogin, ?_, ?_⟩
    · rw [hlogin]
      simp [List.lookup]
    · simp [Master.IsAdmin]
  · intro err hm
    simp [Login, hm]
  · intro master err hm hk
    simp [Login, hm, hk]
  · intro master pre l post es err hm hk hes hl
    have hc := Login.collect_error c s w req.User pre es [] l post err hes hl
    simp [Login, hm, hk, hc]

/-- Witness of C9: user 1 logs in against `master0`, whose one link is to
`election0`, where 1 is a voter; 1 is on the admin list of `master0`. -/
theorem login_collects_and_registers_witness :
    memChains.FetchMaster svc1.node [20] mem0 = .ok master0 ∧
    memChains.Links master0 mem0 = .ok [⟨[10]⟩] ∧
    Login memChains svc1 mem0 ⟨[20], 1⟩ "t" =
      ⟨.ok ⟨"t", true, [election0]⟩, { svc1 with state := ⟨[("t", ⟨1, true⟩)]⟩ }, mem0,
        [Call.FetchMaster [7] [20], Call.Links master0, Call.FetchElection [7] [10]]⟩ :=
  ⟨by decide, by decide,
   ((login_collects_and_registers memChains svc1 mem0 ⟨[20], 1⟩ "t").1 master0 [⟨[10]⟩]
     [election0] (by decide) (by decide) (by decide)).1⟩

/-! ## C10: Open when the key generation completes -/

/-- C10: let the session be admin, the master be fetched, the new ledger `g`
be created and the key generation start and complete in time with `secret`.
Then `Open` keeps `secret` in the secret map under `Short g` and stores the
draft with `ID = g`, the roster of the master and `Key = secret.X` in ledger
`g`; if that store fails `Open` returns its error and stores no link; if it
succeeds `Open` stores a link to `g` in the ledger of the master and, if that
succeeds too, replies with `(g, secret.X)`.  And for every input, a link
stored by `Open` comes right after a store of the election in the ledger the
link points to, and that store returned no error. -/
theorem open_done_stores_then_links (c : Chains L) (s : Service) (w : L) :
    (∀ (req : api.Open) (run : Run SharedSecret) (st : stamp) (master : Master)
        (g : SkipBlockID) (w1 : L) (secret : SharedSecret),
      s.state.log.lookup req.Token = some st → st.admin = true →
      c.FetchMaster s.node req.Master w = .ok master →
      c.New master.Roster w = (.ok g, w1) →
      run.start = none → run.race = Race.done secret →
      (Open c s w req run).service = { s with secrets := (c.Short g, secret) :: s.secrets } ∧
      (Open c s w req run).service.secrets.lookup (c.Short g) = some secret ∧
      (∀ err w2,
        c.Store master.Roster g (Record.election
          { req.Election with ID := g, Roster := master.Roster, Key := secret.X }) w1 =
            (some err, w2) →
        (Open c s w req run).reply = .error err ∧ (Open c s w req run).ledger = w2 ∧
        (Open c s w req run).calls =
          [Call.FetchMaster s.node req.Master, Call.New master.Roster,
            Call.Start ProtocolName.dkg ⟨master.Roster, master.Roster.length, s.identity⟩ g,
            Call.Store master.Roster g (Record.election
              { req.Election with ID := g, Roster := master.Roster, Key := secret.X })]) ∧
      (∀ w2, c.Store master.Roster g (Record.election
          { req.Election with ID := g, Roster := master.Roster, Key := secret.X }) w1 =
            (none, w2) →
        (Open c s w req run).calls =
          [Call.FetchMaster s.node req.Master, Call.New master.Roster,
            Call.Start ProtocolName.dkg ⟨master.Roster, master.Roster.length, s.identity⟩ g,
            Call.Store master.Roster g (Record.election
              { req.Election with ID := g, Roster := master.Roster, Key := secret.X }),
            Call.Store master.Roster master.ID (Record.link ⟨g⟩)] ∧
        (Open c s w req run).ledger =
          (c.Store master.Roster master.ID (Record.link ⟨g⟩) w2).2 ∧
        (Open c s w req run).reply =
          (match (c.Store master.Roster master.ID (Record.link ⟨g⟩) w2).1 with
           | none => .ok ⟨g, secret.X⟩
           | some err => .error err))) ∧
    (∀ (req : api.Open) (run : Run SharedSecret) (roster : Roster) (id : SkipBlockID)
        (l : chains.Link),
      Call.Store roster id (Record.link l) ∈ (Open c s w req run).calls →
      ∃ master w1 w2 e pre,
        c.FetchMaster s.node req.Master w = .ok master ∧
        c.New master.Roster w = (.ok l.Genesis, w1) ∧
        e.ID = l.Genesis ∧
        c.Store master.Roster l.Genesis (Record.election e) w1 = (none, w2) ∧
        roster = master.Roster ∧ id = master.ID ∧
        (Open c s w req run).calls =
          pre ++ [Call.Store master.Roster l.Genesis (Record.election e),
            Call.Store roster id (Record.link l)]) := by
  constructor
  · intro req run st master g w1 secret hl ha hm hn hs hr
    rcases h1 : c.Store master.Roster g (Record.election
        { req.Election with ID := g, Roster := master.Roster, Key := secret.X }) w1
      with ⟨_ | err, w2⟩
    · rcases h2 : c.Store master.Roster master.ID (Record.link ⟨g⟩) w2 with ⟨_ | err, w3⟩
      · simp [Open, hl, ha, hm, hn, hs, hr, h1, h2, List.lookup]
      · simp [Open, hl, ha, hm, hn, hs, hr, h1, h2, List.lookup]
    · simp [Open, hl, ha, hm, hn, hs, hr, h1, List.lookup]
  · intro req run roster id l hmem
    cases hl : s.state.log.lookup req.Token with
    | none => simp [Open, hl] at hmem
    | some st =>
      cases ha : st.admin with
      | false => simp [Open, hl, ha] at hmem
      | true =>
        cases hm : c.FetchMaster s.node req.Master w with
        | error err => simp [Open, hl, ha, hm] at hmem
        | ok master =>
          rcases hn : c.New master.Roster w with ⟨_ | g, w1⟩
          · simp [Open, hl, ha, hm, hn] at hmem
          · cases hs : run.start with
            | some err => simp [Open, hl, ha, hm, hn, hs] at hmem
            | none =>
              cases hr : run.race with
              | timeout => simp [Open, hl, ha, hm, hn, hs, hr] at hmem
              | done secret =>
                rcases h1 : c.Store master.Roster g (Record.election
                  { req.Election with ID := g, Roster := master.Roster, Key := secret.X })
                  w1 with ⟨_ | err, w2⟩
                · have hcalls : (Open c s w req run).calls =
                      [Call.FetchMaster s.node req.Master, Call.New master.Roster,
                        Call.Start ProtocolName.dkg
                          ⟨master.Roster, master.Roster.length, s.identity⟩ g] ++
                      [Call.Store master.Roster g (Record.election
                          { req.Election with ID := g, Roster := master.Roster, Key := secret.X }),
                        Call.Store master.Roster master.ID (Record.link ⟨g⟩)] := by
                    rcases h2 : c.Store master.Roster master.ID (Record.link ⟨g⟩) w2
                      with ⟨_ | err, w3⟩ <;>
                      simp [Open, hl, ha, hm, hn, hs, hr, h1, h2]
                  rw [hcalls] at hmem
                  simp at hmem
                  obtain ⟨hro, hid, hlk⟩ := hmem
                  subst hro hid hlk
                  exact ⟨master, w1, w2, _, _, rfl, hn, rfl, h1, rfl, rfl, hcalls⟩
                · simp [Open, hl, ha, hm, hn, hs, hr, h1] at hmem

/-- Witness of C10: `open0` on the ledger in memory, where both stores
succeed. -/
theorem open_done_stores_then_links_witness :
    svc0.state.log.lookup open0.Token = some ⟨5, true⟩ ∧
    memChains.FetchMaster svc0.node open0.Master mem0 = .ok master0 ∧
    (memChains.New master0.Roster mem0).1 = .ok [30] ∧
    (Open memChains svc0 mem0 open0 run0).service.secrets.lookup (memChains.Short [30]) =
      some ⟨0, 11, 12⟩ :=
  ⟨by decide, by decide, by decide,
   ((open_done_stores_then_links memChains svc0 mem0).1 open0 run0 ⟨5, true⟩ master0 [30]
     (memChains.New master0.Roster mem0).2 ⟨0, 11, 12⟩ (by decide) rfl (by decide) (by decide)
     (by decide) (by decide)).2.1⟩

/-! ## C11: the timer wins -/

/-- C11: let the timer fire before the completion signal of the protocol.
`Open`, with an admin session, the master fetched, the new ledger created and
the key generation started, fails with `DKG timeout`: the ledger is what the
creation of the new ledger left, that creation is the only write among its
calls, it stores no election and no link, and the service, its secret map
included, is unchanged.  `Shuffle`, with its guard passed, the ballots read
and stored as one record and the protocol started, fails with
`Shuffle timeout`: the ledger is what the store of the ballots left and that
store is the only write among its calls.  In both, the start of the protocol
is the last call. -/
theorem timeout_keeps_earlier_writes (c : Chains L) (s : Service) (w : L) :
    (∀ (req : api.Open) (run : Run SharedSecret) (st : stamp) (master : Master)
        (g : SkipBlockID) (w1 : L),
      s.state.log.lookup req.Token = some st → st.admin = true →
      c.FetchMaster s.node req.Master w = .ok master →
      c.New master.Roster w = (.ok g, w1) →
      run.start = none → run.race = Race.timeout →
      Open c s w req run =
        ⟨.error DKG_TIMEOUT, s, w1,
          [Call.FetchMaster s.node req.Master, Call.New master.Roster,
            Call.Start ProtocolName.dkg ⟨master.Roster, master.Roster.length, s.identity⟩ g]⟩ ∧
      (Open c s w req run).calls.filter Call.isWrite = [Call.New master.Roster] ∧
      storedElections (Open c s w req run).calls = [] ∧
      (∀ roster id l, Call.Store roster id (Record.link l) ∉ (Open c s w req run).calls) ∧
      (Open c s w req run).service.secrets = s.secrets) ∧
    (∀ (req : api.Shuffle) (run : Run Unit) (u : User) (e : Election) (cs : List Call)
        (box : Box) (w1 : L),
      retrieve c s w req.Token req.Genesis true c.STAGE_RUNNING = (.ok (u, e), cs) →
      c.Ballots e w = .ok box →
      c.Store e.Roster e.ID (Record.box box) w = (none, w1) →
      run.start = none → run.race = Race.timeout →
      Shuffle c s w req run =
        ⟨.error SHUFFLE_TIMEOUT, s, w1,
          cs ++ [Call.Ballots e, Call.Store e.Roster e.ID (Record.box box),
            Call.Start ProtocolName.shuffle ⟨e.Roster, 1, s.identity⟩ e.ID]⟩ ∧
      (Shuffle c s w req run).calls.filter Call.isWrite =
        [Call.Store e.Roster e.ID (Record.box box)]) := by
  constructor
  · intro req run st master g w1 hl ha hm hn hs hr
    have h : Open c s w req run =
        ⟨.error DKG_TIMEOUT, s, w1,
          [Call.FetchMaster s.node req.Master, Call.New master.Roster,
            Call.Start ProtocolName.dkg
              ⟨master.Roster, master.Roster.length, s.identity⟩ g]⟩ := by
      simp [Open, hl, ha, hm, hn, hs, hr, DKG_TIMEOUT]
    refine ⟨h, ?_, ?_, ?_, ?_⟩
    · rw [h]
      simp [Call.isWrite]
    · rw [h]
      simp [storedElections]
    · intro roster id l
      rw [h]
      simp
    · rw [h]
  · intro req run u e cs box w1 hg hb hst hs hr
    have h : Shuffle c s w req run =
        ⟨.error SHUFFLE_TIMEOUT, s, w1,
          cs ++ [Call.Ballots e, Call.Store e.Roster e.ID (Record.box box),
            Call.Start ProtocolName.shuffle ⟨e.Roster, 1, s.identity⟩ e.ID]⟩ := by
      simp [Shuffle, hg, hb, hst, hs, hr, SHUFFLE_TIMEOUT]
    refine ⟨h, ?_⟩
    have hcalls := retrieve_calls c s w req.Token req.Genesis true c.STAGE_RUNNING
    rw [hg] at hcalls
    rw [h]
    rcases hcalls with hc | hc <;> simp at hc <;> simp [hc, Call.isWrite]

/-- Witness of C11: the creator of `election0`, with the admin session `"d"`,
shuffles and the timer fires: the record of the ballots is in ledger `[10]`;
and `open0` with the timer firing leaves the new ledger `[30]` empty. -/
theorem timeout_keeps_earlier_writes_witness :
    retrieve memChains svc0 mem0 "d" [10] true memChains.STAGE_RUNNING =
      (.ok (0, election0), [Call.FetchElection [7] [10]]) ∧
    (Shuffle memChains svc0 mem0 ⟨"d", [10]⟩ ⟨none, Race.timeout⟩).reply =
      .error "Shuffle timeout" ∧
    (Shuffle memChains svc0 mem0 ⟨"d", [10]⟩ ⟨none, Race.timeout⟩).ledger.records [10] =
      some [Record.election election0, Record.ballot ⟨1, 5, 6⟩, Record.box ⟨[⟨1, 5, 6⟩]⟩] ∧
    (Shuffle memChains svc0 mem0 ⟨"d", [10]⟩ ⟨none, Race.timeout⟩).calls.filter Call.isWrite =
      [Call.Store [7, 8, 9] [10] (Record.box ⟨[⟨1, 5, 6⟩]⟩)] ∧
    (Open memChains svc0 mem0 open0 ⟨none, Race.timeout⟩).ledger.records [30] = some [] ∧
    Open memChains svc0 mem0 open0 ⟨none, Race.timeout⟩ =
      ⟨.error "DKG timeout", svc0, (memChains.New [7, 8, 9] mem0).2,
        [Call.FetchMaster [7] [20], Call.New [7, 8, 9],
          Call.Start ProtocolName.dkg ⟨[7, 8, 9], 3, 7⟩ [30]]⟩ :=
  ⟨by decide, by decide, by decide,
   ((timeout_keeps_earlier_writes memChains svc0 mem0).2 ⟨"d", [10]⟩ ⟨none, Race.timeout⟩ 0
     election0 [Call.FetchElection [7] [10]] ⟨[⟨1, 5, 6⟩]⟩
     (memChains.Store [7, 8, 9] [10] (Record.box ⟨[⟨1, 5, 6⟩]⟩) mem0).2
     (by decide) (by decide) (by decide) rfl rfl).2,
   by decide,
   ((timeout_keeps_earlier_writes memChains svc0 mem0).1 open0 ⟨none, Race.timeout⟩ ⟨5, true⟩
     master0 [30] (memChains.New [7, 8, 9] mem0).2
     (by decide) rfl (by decide) (by decide) rfl rfl).1⟩

/-! ## C12: Link and the pin -/

/-- C12: `Link` with an empty pin replies with an empty message and no error
and calls nothing; with a pin that is not empty and differs from the pin of
the service it fails with `Wrong ping` and calls nothing; with a pin that is
not empty and equals the pin of the service it creates a ledger on the roster
of the request and, when that succeeds with identifier `g`, stores in it the
master made of the key of the request, `g`, the roster and the admin list,
replying with `g` when the store succeeds and with the error of the failing
call otherwise.  So `Link` writes to the ledger exactly when the pin is not
empty and is the pin of the service, and it never changes the service. -/
theorem link_creates_master_iff_pin (c : Chains L) (s : Service) (w : L) (req : api.Link) :
    (req.Pin = "" → Link c s w req = ⟨.ok ⟨[]⟩, s, w, []⟩) ∧
    (req.Pin ≠ "" → req.Pin ≠ s.pin → Link c s w req = ⟨.error WRONG_PIN, s, w, []⟩) ∧
    (req.Pin ≠ "" → req.Pin = s.pin →
      (∀ err w1, c.New req.Roster w = (.error err, w1) →
        Link c s w req = ⟨.error err, s, w1, [Call.New req.Roster]⟩) ∧
      (∀ g w1, c.New req.Roster w = (.ok g, w1) →
        (Link c s w req).calls =
          [Call.New req.Roster,
            Call.Store req.Roster g (Record.master ⟨req.Key, g, req.Roster, req.Admins⟩)] ∧
        (Link c s w req).ledger =
          (c.Store req.Roster g (Record.master ⟨req.Key, g, req.Roster, req.Admins⟩) w1).2 ∧
        (Link c s w req).reply =
          (match (c.Store req.Roster g
              (Record.master ⟨req.Key, g, req.Roster, req.Admins⟩) w1).1 with
           | none => .ok ⟨g⟩
           | some err => .error err))) ∧
    ((∃ call ∈ (Link c s w req).calls, call.isWrite = true) ↔
      (req.Pin ≠ "" ∧ req.Pin = s.pin)) ∧
    (Link c s w req).service = s := by
  by_cases h0 : req.Pin = ""
  · simp [Link, h0]
  · by_cases h1 : req.Pin = s.pin
    · have h0s : ¬ s.pin = "" := by
        rw [← h1]
        exact h0
      rcases hn : c.New req.Roster w with ⟨err | g, w1⟩
      · simp [Link, h0, h1, h0s, hn, Call.isWrite]
      · rcases hst : c.Store req.Roster g
            (Record.master ⟨req.Key, g, req.Roster, req.Admins⟩) w1 with ⟨_ | err, w2⟩
        · simp [Link, h0, h1, h0s, hn, hst, Call.isWrite]
        · simp [Link, h0, h1, h0s, hn, hst, Call.isWrite]
    · simp [Link, h0, h1, WRONG_PIN]

/-- Witness of C12: `link0` presents the pin of `svc0`; the master is stored
in the new ledger `[30]` and `[30]` is the reply; with the pin `"000000"`
nothing is created. -/
theorem link_creates_master_iff_pin_witness :
    link0.Pin ≠ "" ∧ link0.Pin = svc0.pin ∧
    (memChains.New link0.Roster mem0).1 = .ok [30] ∧
    (Link memChains svc0 mem0 link0).reply = .ok ⟨[30]⟩ ∧
    (Link memChains svc0 mem0 link0).ledger.records [30] =
      some [Record.master ⟨9, [30], [7, 8, 9], [1, 5]⟩] ∧
    Link memChains svc0 mem0 ⟨"000000", [7, 8, 9], 9, [1, 5]⟩ =
      ⟨.error "Wrong ping", svc0, mem0, []⟩ :=
  ⟨by decide, by decide, by decide,
   (((link_creates_master_iff_pin memChains svc0 mem0 link0).2.2.1 (by decide) (by decide)).2
     [30] (memChains.New link0.Roster mem0).2 (by decide)).2.2,
   by decide,
   (link_creates_master_iff_pin memChains svc0 mem0 ⟨"000000", [7, 8, 9], 9, [1, 5]⟩).2.1
     (by decide) (by decide)⟩

/-! ## C13: Ping -/

/-- C13: for every nonce `n`, `Ping` replies, without error, with the nonce
`(n + 1) mod 2^32`, which is `n + 1` unless `n` is the largest 32-bit value;
it calls nothing and leaves the service and the ledger as they were, and the
reply is the same for every service state and ledger. -/
theorem ping_increments_nonce (s : Service) (w : L) (n : Nat) :
    Ping s w ⟨n⟩ = ⟨.ok ⟨(n + 1) % 2 ^ 32⟩, s, w, []⟩ ∧
    (n + 1 < 2 ^ 32 → (Ping s w ⟨n⟩).reply = .ok ⟨n + 1⟩) ∧
    (n + 1 = 2 ^ 32 → (Ping s w ⟨n⟩).reply = .ok ⟨0⟩) ∧
    (∀ (s1 : Service) (w1 : L), (Ping s1 w1 ⟨n⟩).reply = (Ping s w ⟨n⟩).reply) := by
  refine ⟨rfl, ?_, ?_, ?_⟩
  · intro h
    unfold Ping
    rw [Nat.mod_eq_of_lt h]
  · intro h
    unfold Ping
    rw [h, Nat.mod_self]
  · intro s1 w1
    rfl

/-- Witness of C13: the nonce 0 of the test, on `svc0`. -/
theorem ping_increments_nonce_witness :
    (Ping svc0 mem0 ⟨0⟩).reply = .ok ⟨1⟩ ∧
    (Ping svc0 mem0 ⟨4294967295⟩).reply = .ok ⟨0⟩ :=
  ⟨(ping_increments_nonce svc0 mem0 0).2.1 (by decide),
   (ping_increments_nonce svc0 mem0 4294967295).2.2.1 (by decide)⟩

end Nevv
